import Mathlib

/- Verification of the oh-procd process supervisor against its specification.
   The Rust sources are shallowly embedded: pure data manipulation becomes Lean
   functions; filesystem reads, clock reads and channel arrivals become explicit
   parameters; the select nondeterminism of the supervisor loop becomes an
   explicit event schedule. Durations and timestamps are modelled in seconds as
   natural numbers; mtimes are natural numbers; process ids are natural numbers. -/

set_option autoImplicit false

namespace Procd

/- ===== Data model (src/config.rs, src/process/registry.rs) ===== -/

/-- Embeds struct ProcessConfig (src/config.rs). Durations are seconds. -/
structure ProcessConfig where
  name : String
  cmd : String
  args : List String
  envs : List String
  home : String
  redirect_output : Bool
  output_dir : String
  max_run : Option Nat
  next : Option Nat
  memory_limit : Option Nat
  web_address : String
  enable : Bool
  use_sandbox : String
  sandbox : List String
deriving Repr, DecidableEq

/-- Embeds enum ProcState (src/process/registry.rs). -/
inductive ProcState where
  | Ready
  | Running
  | Stopping
  | Error (msg : String)
  | Stopped
  | Killed
  | Exited (code : Int)
deriving Repr, DecidableEq

/-- Embeds enum ControlMsg (src/process/registry.rs). -/
inductive ControlMsg where
  | Kill
  | Restart
deriving Repr, DecidableEq

/-- Embeds struct ProcessEntry (src/process/registry.rs). The mpsc sender
control_tx is modelled as an opaque channel identifier. -/
structure ProcessEntry where
  index : Int
  state : ProcState
  cmd : ProcessConfig
  cmd_abs_path : Option String
  pid : Option Nat
  control_tx : Nat
  start_time : Option Nat
  start_count : Nat
  exit_time : Option Nat
  last_modified : Option Nat
deriving Repr, DecidableEq

/-- Embeds struct Registry (src/process/registry.rs): the mutex-guarded map is
modelled as an association list with unique keys (HashMap semantics); start is
the daemon start timestamp. -/
structure Registry where
  start : Nat
  entries : List (String × ProcessEntry)
deriving Repr, DecidableEq

/-- Lookup in the association list modelling the HashMap: first match wins. -/
def findEntry (l : List (String × ProcessEntry)) (name : String) : Option ProcessEntry :=
  (l.find? (fun p => p.1 == name)).map (fun p => p.2)

/-- Embeds Registry::find (src/process/registry.rs line 144): clone the entry. -/
def Registry.find (r : Registry) (name : String) : Option ProcessEntry :=
  findEntry r.entries name

/-- Update of the single slot of the HashMap keyed by name (keys are unique, so
updating the first match models get_mut). -/
def updateFirst (l : List (String × ProcessEntry)) (name : String)
    (f : ProcessEntry → ProcessEntry) : List (String × ProcessEntry) :=
  match l with
  | [] => []
  | p :: rest =>
    if p.1 == name then (p.1, f p.2) :: rest else p :: updateFirst rest name f

/-- The match of Registry::set_state that guards the exit_time update:
Stopped | Killed | Exited(_) | Error(_) (src/process/registry.rs lines 189-194). -/
def isExitState (s : ProcState) : Bool :=
  match s with
  | .Stopped => true
  | .Killed => true
  | .Exited _ => true
  | .Error _ => true
  | _ => false

/-- The match of Registry::set_state that guards the start_count increment:
Error(_) (src/process/registry.rs lines 196-198). -/
def isErrorState (s : ProcState) : Bool :=
  match s with
  | .Error _ => true
  | _ => false

/-- The per-entry effect of Registry::set_state (src/process/registry.rs lines
184-204): set state; set exit_time = now on Stopped | Killed | Exited | Error;
increment start_count on Error. -/
def set_state_entry (e : ProcessEntry) (state : ProcState) (now : Nat) : ProcessEntry :=
  let e1 := { e with state := state }
  let e2 := if isExitState state then { e1 with exit_time := some now } else e1
  if isErrorState state then { e2 with start_count := e2.start_count + 1 } else e2

/-- Embeds Registry::set_state (src/process/registry.rs lines 184-204). The
panic on a missing name is modelled as none. -/
def Registry.set_state (r : Registry) (name : String) (state : ProcState) (now : Nat) :
    Option Registry :=
  match findEntry r.entries name with
  | some _ => some { r with entries := updateFirst r.entries name (fun e => set_state_entry e state now) }
  | none => none

/-- Embeds Registry::set_running (src/process/registry.rs lines 206-219):
state Running, pid, start_time = now, start_count + 1, last_modified refreshed
from the filesystem (fsMtime is the filesystem view of mtimes by path). -/
def set_running_entry (e : ProcessEntry) (pid : Nat) (now : Nat)
    (fsMtime : String → Option Nat) : ProcessEntry :=
  { e with
    state := .Running
    pid := some pid
    start_time := some now
    start_count := e.start_count + 1
    last_modified := match e.cmd_abs_path with
      | none => none
      | some p => fsMtime p }

/-- Embeds Registry::set_running at the registry level; panic modelled as none. -/
def Registry.set_running (r : Registry) (name : String) (pid : Nat) (now : Nat)
    (fsMtime : String → Option Nat) : Option Registry :=
  match findEntry r.entries name with
  | some _ => some { r with entries := updateFirst r.entries name (fun e => set_running_entry e pid now fsMtime) }
  | none => none

/- ===== Lemmas about the registry map ===== -/

/-- Updating the slot keyed by name rewrites exactly the entry that findEntry
returns. -/
theorem findEntry_updateFirst (l : List (String × ProcessEntry)) (name : String)
    (f : ProcessEntry → ProcessEntry) (e : ProcessEntry)
    (h : findEntry l name = some e) :
    findEntry (updateFirst l name f) name = some (f e) := by
  induction l with
  | nil => simp [findEntry] at h
  | cons p rest ih =>
    by_cases hp : p.1 == name
    · simp [findEntry, List.find?, hp] at h
      simp [findEntry, updateFirst, List.find?, hp, h]
    · simp only [findEntry, List.find?, hp] at h
      simp only [updateFirst, hp, if_false, findEntry, List.find?, hp]
      exact ih h

/- ===== File-change watcher (src/process/registry.rs, watch_one) ===== -/

/-- Observable effects of one watch_one call: whether the mtime-unreadable
warning was logged, and whether a Restart was try-sent to the control channel. -/
structure WatchResult where
  warned_mtime : Bool
  sent_restart : Bool
deriving Repr, DecidableEq

/-- Embeds ProcessEntry::get_cmd_mtime (src/process/registry.rs lines 67-81):
none when cmd_abs_path is absent or the filesystem read fails; fsMtime is the
filesystem view mapping a path to its readable mtime. -/
def ProcessEntry.get_cmd_mtime (e : ProcessEntry) (fsMtime : String → Option Nat) : Option Nat :=
  match e.cmd_abs_path with
  | none => none
  | some p => fsMtime p

/-- Embeds Registry::watch_one (src/process/registry.rs lines 111-142). Note
the source logs a warning when the current mtime is unreadable but does NOT
return there: it falls through to the mtime comparison. -/
def Registry.watch_one (r : Registry) (name : String) (fsMtime : String → Option Nat) :
    WatchResult :=
  match r.find name with
  | none => { warned_mtime := false, sent_restart := false }
  | some pe =>
    if pe.cmd.enable = false ∨ pe.state ≠ ProcState.Running then
      { warned_mtime := false, sent_restart := false }
    else if pe.cmd_abs_path = none then
      { warned_mtime := false, sent_restart := false }
    else
      let current_mtime := pe.get_cmd_mtime fsMtime
      if current_mtime = pe.last_modified then
        { warned_mtime := current_mtime.isNone, sent_restart := false }
      else
        { warned_mtime := current_mtime.isNone, sent_restart := true }

/- ===== Concrete example data shared by witnesses ===== -/

/-- A concrete enabled ProcessConfig used by concrete witnesses. -/
def egConfig : ProcessConfig :=
  { name := "svc", cmd := "/bin/app", args := [], envs := [], home := ""
  , redirect_output := false, output_dir := "", max_run := none, next := none
  , memory_limit := none, web_address := "", enable := true, use_sandbox := ""
  , sandbox := [] }

/-- A concrete running ProcessEntry whose last_modified was captured at its
last set_running. -/
def egEntry : ProcessEntry :=
  { index := 1, state := .Running, cmd := egConfig, cmd_abs_path := some "/bin/app"
  , pid := some 42, control_tx := 0, start_time := some 10, start_count := 1
  , exit_time := none, last_modified := some 100 }

/-- A concrete one-entry registry. -/
def egRegistry : Registry := { start := 0, entries := [("svc", egEntry)] }

/- ===== Claim C6 ===== -/

/-- C6: for every name present in the Registry, set_state updates the state
field, sets exit_time to now exactly when the new state is Stopped, Killed,
Exited or Error, increments start_count exactly when the new state is Error,
and leaves every other field unchanged, in particular the last pid is
preserved on a transition to Killed; set_state on a missing name panics
(modelled as none). -/
theorem C6_set_state_semantics (r : Registry) (name : String) (s : ProcState) (now : Nat) :
    (r.find name = none → r.set_state name s now = none) ∧
    (∀ e : ProcessEntry, r.find name = some e →
      ∃ r2 : Registry, r.set_state name s now = some r2 ∧
        r2.find name = some (set_state_entry e s now)) ∧
    (∀ e : ProcessEntry,
      (set_state_entry e s now).state = s ∧
      (set_state_entry e s now).exit_time = (if isExitState s then some now else e.exit_time) ∧
      (set_state_entry e s now).start_count
        = (if isErrorState s then e.start_count + 1 else e.start_count) ∧
      (set_state_entry e s now).pid = e.pid ∧
      (set_state_entry e s now).index = e.index ∧
      (set_state_entry e s now).cmd = e.cmd ∧
      (set_state_entry e s now).cmd_abs_path = e.cmd_abs_path ∧
      (set_state_entry e s now).control_tx = e.control_tx ∧
      (set_state_entry e s now).start_time = e.start_time ∧
      (set_state_entry e s now).last_modified = e.last_modified) := by
  refine ⟨?_, ?_, ?_⟩
  · intro h
    simp only [Registry.find] at h
    simp [Registry.set_state, h]
  · intro e h
    simp only [Registry.find] at h
    refine ⟨{ r with entries := updateFirst r.entries name (fun e => set_state_entry e s now) }, ?_, ?_⟩
    · simp [Registry.set_state, h]
    · simpa [Registry.find] using findEntry_updateFirst r.entries name _ e h
  · intro e
    unfold set_state_entry
    by_cases h1 : isExitState s <;> by_cases h2 : isErrorState s <;> simp [h1, h2]

/-- Witness for C6 at a concrete registry: the Killed transition keeps the last
pid and records the exit time. -/
theorem C6_set_state_semantics_witness :
    (∃ r2 : Registry, egRegistry.set_state "svc" .Killed 99 = some r2 ∧
      r2.find "svc" = some (set_state_entry egEntry .Killed 99)) ∧
    (set_state_entry egEntry .Killed 99).pid = egEntry.pid ∧
    (set_state_entry egEntry .Killed 99).exit_time
      = (if isExitState .Killed then some 99 else egEntry.exit_time) :=
  ⟨(C6_set_state_semantics egRegistry "svc" .Killed 99).2.1 egEntry (by decide),
   ((C6_set_state_semantics egRegistry "svc" .Killed 99).2.2 egEntry).2.2.2.1,
   ((C6_set_state_semantics egRegistry "svc" .Killed 99).2.2 egEntry).2.1⟩

/- ===== Claim C1 ===== -/

/-- C1: the claim states that when the current mtime of cmd_abs_path cannot be
read, the watcher logs a warning and moves on without sending a Restart. The
source warns but falls through to the comparison: here is an enabled Running
entry with a readable-at-registration mtime for which the unreadable current
mtime differs from last_modified, so a Restart IS try-sent. -/
theorem C1_counterexample :
    (egRegistry.find "svc").isSome = true ∧
    egEntry.cmd.enable = true ∧
    egEntry.state = ProcState.Running ∧
    egEntry.cmd_abs_path.isSome = true ∧
    egEntry.get_cmd_mtime (fun _ => none) = none ∧
    (egRegistry.watch_one "svc" (fun _ => none)).warned_mtime = true ∧
    (egRegistry.watch_one "svc" (fun _ => none)).sent_restart = true := by
  decide

/-- C1 amended: when the current mtime is unreadable the watcher logs the
warning and still performs the comparison: it sends a Restart exactly when
last_modified is present (only a last_modified that is also absent compares
equal and is skipped). -/
theorem C1_amended (r : Registry) (name : String) (pe : ProcessEntry)
    (fsMtime : String → Option Nat) (p : String)
    (h : r.find name = some pe)
    (hen : pe.cmd.enable = true) (hrun : pe.state = ProcState.Running)
    (hp : pe.cmd_abs_path = some p) (hfs : fsMtime p = none) :
    r.watch_one name fsMtime
      = { warned_mtime := true, sent_restart := pe.last_modified.isSome } := by
  have hcur : pe.get_cmd_mtime fsMtime = none := by
    simp [ProcessEntry.get_cmd_mtime, hp, hfs]
  cases hlm : pe.last_modified with
  | none => simp [Registry.watch_one, h, hen, hrun, hp, hcur, hlm]
  | some t => simp [Registry.watch_one, h, hen, hrun, hp, hcur, hlm]

/-- Witness for C1 amended at the concrete registry. -/
theorem C1_amended_witness :
    egRegistry.watch_one "svc" (fun _ => none)
      = { warned_mtime := true, sent_restart := egEntry.last_modified.isSome } :=
  C1_amended egRegistry "svc" egEntry (fun _ => none) "/bin/app"
    (by decide) (by decide) (by decide) (by decide) rfl

/- ===== Supervisor task (src/process/supervisor.rs, supervise) ===== -/

/-- Result of spawn_process as seen by the supervise loop: a pid on success, an
error message on failure. -/
inductive SpawnOutcome where
  | ok (pid : Nat)
  | err (msg : String)
deriving Repr, DecidableEq

/-- Environment of one loop iteration (one child generation): the spawn result,
the time at which the child would exit on its own and its exit code, and the
time-ordered control-message arrivals of this generation. -/
structure GenEnv where
  spawn : SpawnOutcome
  exitAt : Nat
  exitCode : Int
  arrivals : List (Nat × ControlMsg)
deriving Repr, DecidableEq

/-- u64::MAX, the sleep the source arms when max_run is absent. -/
def u64Max : Nat := 18446744073709551615

/-- The deadline the max-run timer is armed with (src/process/supervisor.rs
lines 191-197): sleep(max_time) when max_run is set, sleep(u64::MAX) seconds
otherwise. -/
def maxRunDeadline (cfg : ProcessConfig) : Nat :=
  match cfg.max_run with
  | some d => d
  | none => u64Max

/-- The branch the tokio select resolves to. -/
inductive GenEvent where
  | ChildExit (code : Int)
  | Control (m : ControlMsg)
  | MaxRunFire
deriving Repr, DecidableEq

/-- Which select branch wins (src/process/supervisor.rs lines 199-234): the
event that completes first. Exact ties are resolved control-first then
exit-first (tokio randomizes among simultaneously ready branches; the theorems
below only use schedules without ties). -/
def winner (cfg : ProcessConfig) (env : GenEnv) : GenEvent :=
  let dl := maxRunDeadline cfg
  match env.arrivals.head? with
  | some (t, m) =>
    if t ≤ env.exitAt ∧ t ≤ dl then .Control m
    else if env.exitAt ≤ dl then .ChildExit env.exitCode
    else .MaxRunFire
  | none =>
    if env.exitAt ≤ dl then .ChildExit env.exitCode
    else .MaxRunFire

/-- Observable result of one iteration of the supervise loop. -/
structure GenResult where
  stateSeq : List ProcState
  sleptNext : Bool
  killedPid : Bool
  returned : Bool
deriving Repr, DecidableEq

/-- One iteration of the supervise loop (src/process/supervisor.rs lines
165-241): the registry transitions it performs in order, whether wait_next
slept (cfg.next armed and the branch calls wait_next), whether kill_process was
called on the pid, and whether the task returned. On spawn failure the source
sets Error and retries after 1s; on success it sets Running, then selects among
natural exit (set Exited, wait_next), Restart (kill, set Stopped, no wait_next),
Kill (kill, set Killed, return) and max-run fire (kill, set Stopped,
wait_next). -/
def superviseGen (cfg : ProcessConfig) (env : GenEnv) : GenResult :=
  match env.spawn with
  | .err msg =>
    { stateSeq := [.Error msg], sleptNext := false, killedPid := false, returned := false }
  | .ok _ =>
    match winner cfg env with
    | .ChildExit code =>
      { stateSeq := [.Running, .Exited code], sleptNext := cfg.next.isSome
      , killedPid := false, returned := false }
    | .Control .Restart =>
      { stateSeq := [.Running, .Stopped], sleptNext := false
      , killedPid := true, returned := false }
    | .Control .Kill =>
      { stateSeq := [.Running, .Killed], sleptNext := false
      , killedPid := true, returned := true }
    | .MaxRunFire =>
      { stateSeq := [.Running, .Stopped], sleptNext := cfg.next.isSome
      , killedPid := true, returned := false }

/-- Control messages still pending in the bounded inbox when the iteration
ends: the select consumes only the message of a winning control branch; every
other arrival stays queued for a later generation. -/
def pendingAfter (cfg : ProcessConfig) (env : GenEnv) : List ControlMsg :=
  match env.spawn, winner cfg env with
  | .ok _, .Control _ => (env.arrivals.drop 1).map Prod.snd
  | _, _ => env.arrivals.map Prod.snd

/-- The supervise loop run against a finite schedule of generation
environments: the concatenation of the per-iteration state transitions; the
loop stops early when an iteration returns (the Kill branch) and otherwise
continues through the schedule. -/
def superviseTrace (cfg : ProcessConfig) : List GenEnv → List ProcState
  | [] => []
  | env :: rest =>
    let r := superviseGen cfg env
    if r.returned then r.stateSeq else r.stateSeq ++ superviseTrace cfg rest

/-- supervise first registers the entry, created in Ready (src/process/
supervisor.rs line 156 with register_process of src/process/registry.rs), then
runs the loop: the observable state sequence is Ready followed by the loop
transitions. The source enters the loop unconditionally: no field of cfg, in
particular not enable, guards it. -/
def superviseStates (cfg : ProcessConfig) (script : List GenEnv) : List ProcState :=
  ProcState.Ready :: superviseTrace cfg script

/- ===== Supervisor lemmas ===== -/

/-- An iteration that returns is exactly the Kill branch: its transitions are
Running then Killed. -/
theorem superviseGen_returned (cfg : ProcessConfig) (env : GenEnv)
    (h : (superviseGen cfg env).returned = true) :
    (superviseGen cfg env).stateSeq = [.Running, .Killed] := by
  cases hs : env.spawn with
  | err msg => simp [superviseGen, hs] at h
  | ok pid =>
    cases hw : winner cfg env with
    | ChildExit code => simp [superviseGen, hs, hw] at h
    | Control m =>
      cases m with
      | Kill => simp [superviseGen, hs, hw]
      | Restart => simp [superviseGen, hs, hw] at h
    | MaxRunFire => simp [superviseGen, hs, hw] at h

/-- An iteration that does not return never records Killed. -/
theorem superviseGen_no_killed (cfg : ProcessConfig) (env : GenEnv)
    (h : (superviseGen cfg env).returned = false) :
    ProcState.Killed ∉ (superviseGen cfg env).stateSeq := by
  cases hs : env.spawn with
  | err msg => simp [superviseGen, hs]
  | ok pid =>
    cases hw : winner cfg env with
    | ChildExit code => simp [superviseGen, hs, hw]
    | Control m =>
      cases m with
      | Kill => simp [superviseGen, hs, hw] at h
      | Restart => simp [superviseGen, hs, hw]
    | MaxRunFire => simp [superviseGen, hs, hw]

/-- Killed can only be the last element of a supervise trace. -/
theorem superviseTrace_killed_last (cfg : ProcessConfig) (script : List GenEnv)
    (i : Nat) (h : (superviseTrace cfg script).get? i = some .Killed) :
    (superviseTrace cfg script).length = i + 1 := by
  induction script generalizing i with
  | nil => simp [superviseTrace] at h
  | cons env rest ih =>
    by_cases hret : (superviseGen cfg env).returned = true
    · have hseq := superviseGen_returned cfg env hret
      simp only [superviseTrace, hret, if_true] at h ⊢
      rw [hseq] at h ⊢
      match i with
      | 0 => simp at h
      | 1 => simp
      | (n + 2) => simp at h
    · have hret2 : (superviseGen cfg env).returned = false := by
        revert hret; cases (superviseGen cfg env).returned <;> simp
      have hnok := superviseGen_no_killed cfg env hret2
      simp only [superviseTrace, hret2, Bool.false_eq_true, if_false] at h ⊢
      by_cases hlt : i < (superviseGen cfg env).stateSeq.length
      · exfalso
        rw [List.get?_append hlt] at h
        exact hnok (List.get?_mem h)
      · have hge : (superviseGen cfg env).stateSeq.length ≤ i := by omega
        rw [List.get?_append_right hge] at h
        have := ih (i - (superviseGen cfg env).stateSeq.length) h
        rw [List.length_append, this]
        omega

/- ===== Claim C5 ===== -/

/-- C5: when the supervisor handles a Kill control message it kills the pid,
sets the state Killed and returns from the task: the remaining schedule is
ignored, so no further spawn occurs; and in any trace, no Running (indeed no
state at all) is observed after a Killed. -/
theorem C5_kill_terminal (cfg : ProcessConfig) :
    (∀ (env : GenEnv) (rest : List GenEnv) (pid : Nat),
      env.spawn = .ok pid → winner cfg env = .Control .Kill →
      superviseTrace cfg (env :: rest) = [.Running, .Killed] ∧
      (superviseGen cfg env).returned = true ∧
      (superviseGen cfg env).killedPid = true) ∧
    (∀ (script : List GenEnv) (i j : Nat), i < j →
      (superviseTrace cfg script).get? i = some .Killed →
      (superviseTrace cfg script).get? j ≠ some .Running) := by
  constructor
  · intro env rest pid hspawn hw
    have hgen : superviseGen cfg env
        = { stateSeq := [.Running, .Killed], sleptNext := false
          , killedPid := true, returned := true } := by
      unfold superviseGen
      rw [hspawn, hw]
    refine ⟨?_, by rw [hgen], by rw [hgen]⟩
    simp [superviseTrace, hgen]
  · intro script i j hij hi
    have hlen := superviseTrace_killed_last cfg script i hi
    have hnone : (superviseTrace cfg script).get? j = none := by
      apply List.get?_eq_none.mpr
      omega
    intro hc
    rw [hnone] at hc
    exact Option.noConfusion hc

/-- A generation that receives a Kill at time 3 while the child would exit at
time 100. -/
def egKillEnv : GenEnv := { spawn := .ok 42, exitAt := 100, exitCode := 0, arrivals := [(3, .Kill)] }

/-- A quiet generation: the child exits on its own at time 5 with code 0. -/
def egExitEnv : GenEnv := { spawn := .ok 42, exitAt := 5, exitCode := 0, arrivals := [] }

/-- Witness for C5: after the Kill generation the trace ends at Killed even
though another generation was scheduled, and position 2 after the Killed at
position 1 holds no Running. -/
theorem C5_kill_terminal_witness :
    (superviseTrace egConfig (egKillEnv :: [egExitEnv]) = [.Running, .Killed] ∧
      (superviseGen egConfig egKillEnv).returned = true ∧
      (superviseGen egConfig egKillEnv).killedPid = true) ∧
    (superviseTrace egConfig [egKillEnv]).get? 2 ≠ some ProcState.Running :=
  ⟨(C5_kill_terminal egConfig).1 egKillEnv [egExitEnv] 42 (by decide) (by decide),
   (C5_kill_terminal egConfig).2 [egKillEnv] 1 2 (by decide) (by decide)⟩

/- ===== Claim C2 ===== -/

/-- The failing input for C2: an otherwise well-formed ProcessConfig with
enable = false. -/
def egDisabledConfig : ProcessConfig := { egConfig with enable := false }

/-- C2: the claim states that with enable = false the supervisor registers the
entry and stays in Ready forever, never spawning. The supervise loop of the
source contains no enable check at all: evaluated at the disabled config, the
task leaves Ready, spawns, runs and records Exited 0, exactly as for an enabled
one. -/
theorem C2_disabled_config_spawns :
    egDisabledConfig.enable = false ∧
    superviseStates egDisabledConfig [egExitEnv] = [.Ready, .Running, .Exited 0] ∧
    ProcState.Running ∈ superviseStates egDisabledConfig [egExitEnv] ∧
    superviseStates egDisabledConfig [egExitEnv] ≠ [ProcState.Ready] := by
  decide

/- ===== Claim C3 ===== -/

/-- A config whose max_run is present with value 0. -/
def egZeroMaxRunConfig : ProcessConfig := { egConfig with max_run := some 0 }

/-- C3: the claim states that max_run equal to 0 is treated as disabled, with
no timer arming. In the source only an ABSENT max_run selects the
never-fires sleep; a present max_run of 0 arms a zero deadline, which fires
ahead of the child exit at time 5, kills the child and sets Stopped. -/
theorem C3_counterexample :
    egZeroMaxRunConfig.max_run = some 0 ∧
    maxRunDeadline egZeroMaxRunConfig = 0 ∧
    winner egZeroMaxRunConfig egExitEnv = .MaxRunFire ∧
    (superviseGen egZeroMaxRunConfig egExitEnv).killedPid = true ∧
    (superviseGen egZeroMaxRunConfig egExitEnv).stateSeq = [.Running, .Stopped] := by
  decide

/-- C3 amended: the max-run timeout is disabled exactly when max_run is absent
(the armed sleep is then u64::MAX seconds, which no event within u64::MAX can
lose to); a configured max_run of 0 arms a zero deadline, so with an empty
inbox and a child that needs positive time the timer fires, the child is
killed and the state becomes Stopped. -/
theorem C3_amended (cfg : ProcessConfig) (env : GenEnv) (pid : Nat)
    (hspawn : env.spawn = .ok pid) :
    (cfg.max_run = none → env.exitAt ≤ u64Max → winner cfg env ≠ .MaxRunFire) ∧
    (cfg.max_run = some 0 → env.arrivals = [] → 0 < env.exitAt →
      winner cfg env = .MaxRunFire ∧
      (superviseGen cfg env).stateSeq = [.Running, .Stopped] ∧
      (superviseGen cfg env).killedPid = true) := by
  constructor
  · intro hmr hle
    have hdl : maxRunDeadline cfg = u64Max := by simp [maxRunDeadline, hmr]
    unfold winner
    rw [hdl]
    cases harr : env.arrivals.head? with
    | none => simp [hle]
    | some tm =>
      obtain ⟨t, m⟩ := tm
      by_cases hc : t ≤ env.exitAt ∧ t ≤ u64Max
      · simp [hc]
      · simp [hc, hle]
  · intro hmr harr hpos
    have hdl : maxRunDeadline cfg = 0 := by simp [maxRunDeadline, hmr]
    have hnle : ¬ env.exitAt ≤ 0 := by omega
    have hw : winner cfg env = .MaxRunFire := by
      unfold winner
      rw [hdl, harr]
      simp [hnle]
    refine ⟨hw, ?_, ?_⟩ <;> simp [superviseGen, hspawn, hw]

/-- Witness for C3 amended at concrete inputs: max_run absent never lets the
timer win, and max_run of 0 makes the timer win over an exit at time 5. -/
theorem C3_amended_witness :
    (winner egConfig egExitEnv ≠ .MaxRunFire) ∧
    (winner egZeroMaxRunConfig egExitEnv = .MaxRunFire ∧
      (superviseGen egZeroMaxRunConfig egExitEnv).stateSeq = [.Running, .Stopped] ∧
      (superviseGen egZeroMaxRunConfig egExitEnv).killedPid = true) :=
  ⟨(C3_amended egConfig egExitEnv 42 (by decide)).1 (by decide) (by decide),
   (C3_amended egZeroMaxRunConfig egExitEnv 42 (by decide)).2 (by decide) (by decide) (by decide)⟩

/- ===== Claim C7 ===== -/

/-- A config with max_run 2 and a next cool-down of 5. -/
def egNextMaxRunConfig : ProcessConfig := { egConfig with max_run := some 2, next := some 5 }

/-- A generation in which the child would exit at time 10 and a Restart arrives
at time 3, after the max-run deadline 2: the max-run branch wins and the
Restart stays pending in the inbox while the child is being killed. -/
def egRestartDuringKillEnv : GenEnv :=
  { spawn := .ok 42, exitAt := 10, exitCode := 0, arrivals := [(3, .Restart)] }

/-- C7: the claim states that a Restart pending while the child is being killed
by max_run skips the next cool-down. In the source the max-run branch calls
wait_next unconditionally and never inspects the inbox: here a Restart is
pending while the max-run branch kills the child, yet next IS slept. -/
theorem C7_counterexample :
    egNextMaxRunConfig.next = some 5 ∧
    winner egNextMaxRunConfig egRestartDuringKillEnv = .MaxRunFire ∧
    pendingAfter egNextMaxRunConfig egRestartDuringKillEnv = [ControlMsg.Restart] ∧
    (superviseGen egNextMaxRunConfig egRestartDuringKillEnv).sleptNext = true := by
  decide

/-- C7 amended: next is slept exactly after a natural exit or a max-run
termination (when next is set) and never by the Restart or Kill branch; a
Restart still pending in the inbox when the max-run branch fires does NOT
suppress the next sleep — the max-run branch sleeps next whenever next is set,
regardless of the inbox content. -/
theorem C7_amended (cfg : ProcessConfig) (env : GenEnv) (pid : Nat)
    (hspawn : env.spawn = .ok pid) :
    (∀ code : Int, winner cfg env = .ChildExit code →
      (superviseGen cfg env).sleptNext = cfg.next.isSome) ∧
    (winner cfg env = .Control .Restart → (superviseGen cfg env).sleptNext = false) ∧
    (winner cfg env = .Control .Kill → (superviseGen cfg env).sleptNext = false) ∧
    (winner cfg env = .MaxRunFire →
      (superviseGen cfg env).sleptNext = cfg.next.isSome ∧
      (superviseGen cfg env).stateSeq = [.Running, .Stopped]) := by
  refine ⟨?_, ?_, ?_, ?_⟩
  · intro code hw
    simp [superviseGen, hspawn, hw]
  · intro hw
    simp [superviseGen, hspawn, hw]
  · intro hw
    simp [superviseGen, hspawn, hw]
  · intro hw
    constructor <;> simp [superviseGen, hspawn, hw]

/-- Witness for C7 amended: the max-run branch of the concrete scenario sleeps
the configured next of 5 even though a Restart is pending. -/
theorem C7_amended_witness :
    (superviseGen egNextMaxRunConfig egRestartDuringKillEnv).sleptNext
      = egNextMaxRunConfig.next.isSome ∧
    (superviseGen egNextMaxRunConfig egRestartDuringKillEnv).stateSeq
      = [.Running, .Stopped] :=
  (C7_amended egNextMaxRunConfig egRestartDuringKillEnv 42 (by decide)).2.2.2 (by decide)

/- ===== Process spawner (src/process/supervisor.rs spawn_process,
src/config.rs ProcessConfig::get_cmd) ===== -/

/-- Substring test on character lists, mirroring str::contains for a plain
pattern. -/
def containsChars (pat : List Char) : List Char → Bool
  | [] => pat.isEmpty
  | c :: rest => pat.isPrefixOf (c :: rest) || containsChars pat rest

/-- Fuel-driven replace-all on character lists, mirroring str::replace for a
nonempty plain pattern; the fuel is the input length, enough because every step
consumes at least one character. -/
def replaceCharsAux (pat repl : List Char) : Nat → List Char → List Char
  | 0, l => l
  | _ + 1, [] => []
  | fuel + 1, c :: rest =>
    if pat.isPrefixOf (c :: rest) then
      repl ++ replaceCharsAux pat repl fuel ((c :: rest).drop pat.length)
    else c :: replaceCharsAux pat repl fuel rest

/-- String contains, mirroring str::contains. -/
def containsSub (s pat : String) : Bool := containsChars pat.toList s.toList

/-- String replace-all, mirroring str::replace. -/
def replaceSub (s pat repl : String) : String :=
  String.mk (replaceCharsAux pat.toList repl.toList s.toList.length s.toList)

/-- The Process-Home placeholder token substituted by get_cmd. -/
def phToken : String := "\x7bProcess-Home\x7d"

/-- split_once on the equals sign, on character lists: none when no equals sign
occurs, otherwise the parts before and after the first one. -/
def splitOnceAux : List Char → Option (List Char × List Char)
  | [] => none
  | c :: rest =>
    if c = '=' then some ([], rest)
    else
      match splitOnceAux rest with
      | some (l, r) => some (c :: l, r)
      | none => none

/-- Embeds str::split_once of the equals sign as used on env entries. -/
def splitOnceEq (s : String) : Option (String × String) :=
  match splitOnceAux s.toList with
  | some (l, r) => some (String.mk l, String.mk r)
  | none => none

/-- An envs entry is well formed when it contains an equals sign, i.e. when
split_once succeeds. -/
def wellFormedEnv (e : String) : Bool := (splitOnceEq e).isSome

/-- Child environment model: the final key-value map built over the inherited
parent environment; Command::env overwrites an existing key. -/
def setEnvVar (env : List (String × String)) (k v : String) : List (String × String) :=
  if env.any (fun p => p.1 == k) then
    env.map (fun p => if p.1 == k then (k, v) else p)
  else env ++ [(k, v)]

/-- The final value of a key in the environment model. -/
def getEnvVar (env : List (String × String)) (k : String) : Option String :=
  (env.find? (fun p => p.1 == k)).map (fun p => p.2)

/-- Embeds the per-entry step of the envs loop (src/process/supervisor.rs lines
50-54 and src/config.rs lines 256-260): apply the entry when split_once on the
equals sign succeeds, silently skip it otherwise. -/
def envApply (base : List (String × String)) (entry : String) : List (String × String) :=
  match splitOnceEq entry with
  | some (k, v) => setEnvVar base k v
  | none => base

/-- The command a spawn builds: program, argument list, final environment map
and explicit working directory. -/
structure BuiltCommand where
  program : String
  args : List String
  env : List (String × String)
  cwd : Option String
deriving Repr, DecidableEq

/-- Embeds the command construction of spawn_process, the builder the
supervisor actually calls (src/process/supervisor.rs lines 47-57): program is
cfg.cmd, the arguments are cfg.args, each envs entry containing an equals sign
is applied over the parent environment, and the working directory is home when
home is nonempty. No sandbox prefix, no Process-Home substitution and no
NO_COLOR entry appear here. -/
def spawn_process_cmd (pcfg : ProcessConfig) (parentEnv : List (String × String)) :
    BuiltCommand :=
  { program := pcfg.cmd
  , args := pcfg.args
  , env := pcfg.envs.foldl envApply parentEnv
  , cwd := if pcfg.home = "" then none else some pcfg.home }

/-- Embeds ProcessConfig::get_cmd (src/config.rs lines 230-265): argv is
sandbox ++ [cmd] ++ args with the Process-Home token substituted per token by
the resolved working directory; NO_COLOR=1 is applied first and the envs
entries after it, in order; the working directory is set to home only when
no substitution occurred and home is nonempty. The source never calls this
from the supervisor spawn path. -/
def get_cmd (pcfg : ProcessConfig) (currentDir : String)
    (parentEnv : List (String × String)) : BuiltCommand :=
  let args := pcfg.sandbox ++ [pcfg.cmd] ++ pcfg.args
  let app_home := if pcfg.home = "" then currentDir else pcfg.home
  let has_replace := args.any (fun a => containsSub a phToken)
  let args2 := args.map (fun a =>
    if containsSub a phToken then replaceSub a phToken app_home else a)
  { program := args2.headD ""
  , args := args2.tail
  , env := pcfg.envs.foldl envApply (setEnvVar parentEnv "NO_COLOR" "1")
  , cwd := if has_replace = false ∧ pcfg.home ≠ "" then some pcfg.home else none }

/- ===== Claim C4 ===== -/

/-- The failing input for C4: a config with a sandbox prefix, a Process-Home
token in its arguments and a home directory. -/
def egSandboxConfig : ProcessConfig :=
  { egConfig with
    sandbox := ["/usr/bin/bwrap", "--bind", phToken, "--"]
  , cmd := "/bin/app"
  , args := ["--conf", phToken ++ "/app.conf"]
  , envs := ["A=1"]
  , home := "/srv/app" }

/-- C4: the claim states that every supervisor spawn uses argv sandbox ++ [cmd]
++ args with Process-Home substitution and forces NO_COLOR=1 on top of the
merged envs. The supervisor calls spawn_process, which ignores the sandbox,
performs no substitution and sets no NO_COLOR, while ProcessConfig::get_cmd,
which implements exactly that argv and environment, is never called on the
spawn path: evaluated at the failing input, the two builders differ in
program, argv, environment and working directory. -/
theorem C4_supervisor_spawn_ignores_sandbox :
    (spawn_process_cmd egSandboxConfig []).program = "/bin/app" ∧
    (spawn_process_cmd egSandboxConfig []).args = ["--conf", phToken ++ "/app.conf"] ∧
    getEnvVar (spawn_process_cmd egSandboxConfig []).env "NO_COLOR" = none ∧
    (spawn_process_cmd egSandboxConfig []).cwd = some "/srv/app" ∧
    (get_cmd egSandboxConfig "/cwd" []).program = "/usr/bin/bwrap" ∧
    (get_cmd egSandboxConfig "/cwd" []).args
      = ["--bind", "/srv/app", "--", "/bin/app", "--conf", "/srv/app/app.conf"] ∧
    getEnvVar (get_cmd egSandboxConfig "/cwd" []).env "NO_COLOR" = some "1" ∧
    (get_cmd egSandboxConfig "/cwd" []).cwd = none := by
  decide

/- ===== Claim C10 ===== -/

/-- A malformed env entry, one without an equals sign, applies as the identity. -/
theorem envApply_not_wellFormed (base : List (String × String)) (e : String)
    (h : wellFormedEnv e = false) : envApply base e = base := by
  unfold wellFormedEnv at h
  unfold envApply
  cases hs : splitOnceEq e with
  | none => rfl
  | some p => rw [hs] at h; simp at h

/-- Folding the env application equals folding over only the well-formed
entries. -/
theorem foldl_envApply_filter (l : List String) (base : List (String × String)) :
    l.foldl envApply base = (l.filter wellFormedEnv).foldl envApply base := by
  induction l generalizing base with
  | nil => rfl
  | cons e rest ih =>
    by_cases he : wellFormedEnv e = true
    · simp only [List.filter_cons, he, if_true, List.foldl]
      exact ih (envApply base e)
    · have he2 : wellFormedEnv e = false := by
        revert he; cases wellFormedEnv e <;> simp
      simp only [List.filter_cons, he2, Bool.false_eq_true, if_false, List.foldl,
        envApply_not_wellFormed base e he2]
      exact ih base

/-- split_once on the equals sign fails exactly on strings without one. -/
theorem splitOnceAux_none_iff (cs : List Char) : splitOnceAux cs = none ↔ '=' ∉ cs := by
  induction cs with
  | nil => simp [splitOnceAux]
  | cons c rest ih =>
    by_cases hc : c = '='
    · subst hc
      simp [splitOnceAux]
    · simp only [splitOnceAux, hc, if_false, List.mem_cons]
      cases hrest : splitOnceAux rest with
      | none =>
        have hmem := ih.mp hrest
        constructor
        · intro _ h
          rcases h with h | h
          · exact hc h.symm
          · exact hmem h
        · intro _
          trivial
      | some p =>
        obtain ⟨l, r⟩ := p
        have hin : '=' ∈ rest := by
          by_contra hn
          rw [ih.mpr hn] at hrest
          exact Option.noConfusion hrest
        simp [hin]

/-- C10: the child environment receives exactly the entries containing an
equals sign, applied in order over the parent environment; an entry without
one is silently skipped (the application is the identity, no error and no
spawn failure), and well-formedness is exactly the presence of an equals
sign. -/
theorem C10_malformed_envs_ignored (pcfg : ProcessConfig)
    (parentEnv : List (String × String)) :
    ((spawn_process_cmd pcfg parentEnv).env
      = (pcfg.envs.filter wellFormedEnv).foldl envApply parentEnv) ∧
    (∀ e : String, wellFormedEnv e = false ↔ '=' ∉ e.toList) ∧
    (∀ base : List (String × String), ∀ e : String,
      wellFormedEnv e = false → envApply base e = base) := by
  refine ⟨?_, ?_, ?_⟩
  · exact foldl_envApply_filter pcfg.envs parentEnv
  · intro e
    unfold wellFormedEnv splitOnceEq
    cases hs : splitOnceAux e.toList with
    | none =>
      have h1 := (splitOnceAux_none_iff e.toList).mp hs
      exact ⟨fun _ => h1, fun _ => rfl⟩
    | some p =>
      obtain ⟨l, r⟩ := p
      have h1 : '=' ∈ e.toList := by
        by_contra hn
        rw [(splitOnceAux_none_iff e.toList).mpr hn] at hs
        exact Option.noConfusion hs
      constructor
      · intro hb
        exact Bool.noConfusion hb
      · intro h
        exact absurd h1 h
  · intro base e h
    exact envApply_not_wellFormed base e h

/-- A config with one malformed and one well-formed env entry. -/
def egMalformedEnvConfig : ProcessConfig := { egConfig with envs := ["PLAIN", "A=1"] }

/-- Witness for C10 at the concrete config: the malformed entry PLAIN is
dropped and only A=1 reaches the child environment. -/
theorem C10_malformed_envs_ignored_witness :
    ((spawn_process_cmd egMalformedEnvConfig []).env
      = (egMalformedEnvConfig.envs.filter wellFormedEnv).foldl envApply []) ∧
    envApply [] "PLAIN" = [] ∧
    (spawn_process_cmd egMalformedEnvConfig []).env = [("A", "1")] :=
  ⟨(C10_malformed_envs_ignored egMalformedEnvConfig []).1,
   (C10_malformed_envs_ignored egMalformedEnvConfig []).2.2 [] "PLAIN" (by decide),
   by decide⟩

/- ===== Output pipe logger (src/process/logger.rs, pipe_logger) ===== -/

/-- Result of one pipe read: EOF, a nonempty chunk of bytes, or a read error. -/
inductive ReadResult where
  | eof
  | bytes (chunk : List Nat)
  | err
deriving Repr, DecidableEq

/-- Mutable state of the logger loop: the open file handle, if any, as an
opaque id, and the active hour string. -/
structure LoggerState where
  file : Option Nat
  active_hour : String
deriving Repr, DecidableEq

/-- Filesystem and clock behaviour during one iteration: whether the output
dir exists, whether create_dir_all succeeds, the current hour, whether
fs::metadata on the target path fails, the handle a file open returns (none
models an open error) and whether the write succeeds. -/
structure IterFs where
  dirExists : Bool
  mkdirOk : Bool
  hour : String
  fileMissing : Bool
  openResult : Option Nat
  writeOk : Bool
deriving Repr, DecidableEq

/-- Outcome of one iteration: whether the loop continues, the new loop state,
and the chunk persisted to the open file, if any. -/
structure IterOut where
  cont : Bool
  st : LoggerState
  wrote : Option (List Nat)
deriving Repr, DecidableEq

/-- One iteration of the pipe_logger loop (src/process/logger.rs lines 25-75).
EOF and a read error break the loop; a failing create_dir_all of a missing
output dir logs, skips the chunk and continues; the file is (re)opened on hour
change, on a missing target file or when no handle is open, and an open error
keeps the previous handle; a write error logs and drops the handle so the next
iteration reopens. The outcome is always a plain continue or stop: no error
value leaves the loop. -/
def pipe_logger_iter (st : LoggerState) (fs : IterFs) (rd : ReadResult) : IterOut :=
  match rd with
  | .eof => { cont := false, st := st, wrote := none }
  | .err => { cont := false, st := st, wrote := none }
  | .bytes chunk =>
    if fs.dirExists = false ∧ fs.mkdirOk = false then
      { cont := true, st := st, wrote := none }
    else
      let need_rotate := fs.hour ≠ st.active_hour
      let st1 : LoggerState := { st with active_hour := fs.hour }
      let st2 : LoggerState :=
        if fs.fileMissing = true ∨ need_rotate ∨ st1.file = none then
          match fs.openResult with
          | some h => { st1 with file := some h }
          | none => st1
        else st1
      match st2.file with
      | some _ =>
        if fs.writeOk then { cont := true, st := st2, wrote := some chunk }
        else { cont := true, st := { st2 with file := none }, wrote := none }
      | none => { cont := true, st := st2, wrote := none }

/- ===== Claim C8 ===== -/

/-- C8: a read error ends the loop cleanly; a create_dir_all error causes the
current chunk to be skipped, the state untouched and the loop to continue; a
write error drops the open handle (and the loop continues, so the next
iteration reopens); and when no handle is open a successful open adopts the
new handle and writing resumes. Each outcome is an ordinary continue or stop
of the loop: no error escapes to the supervisor. -/
theorem C8_logger_error_policy (st : LoggerState) (fs : IterFs) (chunk : List Nat) (h : Nat) :
    (pipe_logger_iter st fs .err = { cont := false, st := st, wrote := none }) ∧
    (fs.dirExists = false → fs.mkdirOk = false →
      pipe_logger_iter st fs (.bytes chunk) = { cont := true, st := st, wrote := none }) ∧
    (fs.dirExists = true → fs.fileMissing = false → fs.hour = st.active_hour →
      st.file = some h → fs.writeOk = false →
      pipe_logger_iter st fs (.bytes chunk)
        = { cont := true, st := { file := none, active_hour := st.active_hour }, wrote := none }) ∧
    (fs.dirExists = true → st.file = none → fs.openResult = some h → fs.writeOk = true →
      pipe_logger_iter st fs (.bytes chunk)
        = { cont := true, st := { file := some h, active_hour := fs.hour }, wrote := some chunk }) := by
  refine ⟨rfl, ?_, ?_, ?_⟩
  · intro h1 h2
    simp [pipe_logger_iter, h1, h2]
  · intro h1 h2 h3 h4 h5
    simp [pipe_logger_iter, h1, h2, h3, h4, h5]
  · intro h1 h2 h3 h4
    simp [pipe_logger_iter, h1, h2, h3, h4]

/-- Logger state with an open handle in the current hour. -/
def egLoggerStOpen : LoggerState := { file := some 7, active_hour := "2026083114" }

/-- Logger state with no open handle. -/
def egLoggerStClosed : LoggerState := { file := none, active_hour := "2026083114" }

/-- Filesystem in which the write fails. -/
def egFsWriteErr : IterFs :=
  { dirExists := true, mkdirOk := true, hour := "2026083114", fileMissing := false
  , openResult := some 8, writeOk := false }

/-- Filesystem in which the dir is missing and mkdir fails. -/
def egFsMkdirErr : IterFs :=
  { dirExists := false, mkdirOk := false, hour := "2026083114", fileMissing := false
  , openResult := some 8, writeOk := true }

/-- Filesystem in which opening the log file yields handle 9. -/
def egFsOpenOk : IterFs :=
  { dirExists := true, mkdirOk := true, hour := "2026083114", fileMissing := true
  , openResult := some 9, writeOk := true }

/-- Witness for C8 at concrete states: the read-error stop, the mkdir-error
skip, the write-error handle drop, and the reopen after a drop. -/
theorem C8_logger_error_policy_witness :
    (pipe_logger_iter egLoggerStOpen egFsWriteErr .err
      = { cont := false, st := egLoggerStOpen, wrote := none }) ∧
    (pipe_logger_iter egLoggerStOpen egFsMkdirErr (.bytes [1, 2])
      = { cont := true, st := egLoggerStOpen, wrote := none }) ∧
    (pipe_logger_iter egLoggerStOpen egFsWriteErr (.bytes [1, 2])
      = { cont := true, st := { file := none, active_hour := "2026083114" }, wrote := none }) ∧
    (pipe_logger_iter egLoggerStClosed egFsOpenOk (.bytes [1, 2])
      = { cont := true, st := { file := some 9, active_hour := "2026083114" }, wrote := some [1, 2] }) :=
  ⟨(C8_logger_error_policy egLoggerStOpen egFsWriteErr [1, 2] 7).1,
   (C8_logger_error_policy egLoggerStOpen egFsMkdirErr [1, 2] 7).2.1 rfl rfl,
   (C8_logger_error_policy egLoggerStOpen egFsWriteErr [1, 2] 7).2.2.1 rfl rfl rfl rfl rfl,
   (C8_logger_error_policy egLoggerStClosed egFsOpenOk [1, 2] 9).2.2.2 rfl rfl rfl rfl⟩

/- ===== HTTP basic auth (src/api/auth.rs, basic_auth) ===== -/

/-- Embeds struct AuthConfig (src/config.rs lines 43-48). -/
structure AuthConfig where
  username : String
  password : String
deriving Repr, DecidableEq

/-- Embeds AuthConfig::check (src/config.rs lines 50-54). -/
def AuthConfig.check (a : AuthConfig) (name psw : String) : Bool :=
  a.username == name && a.password == psw

/-- Embeds AuthState (src/api/auth.rs lines 18-21): per-client-IP recent
failure instants, as an association list with unique keys. -/
structure AuthState where
  failed : List (String × List Nat)
deriving Repr, DecidableEq

/-- FAILURE_WINDOW of src/api/auth.rs line 23: 2 * 60 seconds. -/
def FAILURE_WINDOW : Nat := 2 * 60

/-- MAX_FAILURES of src/api/auth.rs line 24. -/
def MAX_FAILURES : Nat := 10

/-- The retain applied to a failure list: keep instants t with
now.duration_since(t) within the window. -/
def retainWindow (now : Nat) (times : List Nat) : List Nat :=
  times.filter (fun t => decide (now - t ≤ FAILURE_WINDOW))

/-- Lookup of the failure list of an IP. -/
def lookupIp (st : AuthState) (ip : String) : Option (List Nat) :=
  (st.failed.find? (fun p => p.1 == ip)).map (fun p => p.2)

/-- In-place update of the single slot of an IP (dashmap get_mut or
and_modify). -/
def updateFirstIp (l : List (String × List Nat)) (ip : String) (ts : List Nat) :
    List (String × List Nat) :=
  match l with
  | [] => []
  | p :: rest => if p.1 == ip then (p.1, ts) :: rest else p :: updateFirstIp rest ip ts

/-- HTTP outcome of the middleware: pass the request on, 401 with the
challenge, or 403. -/
inductive HttpResp where
  | okNext
  | unauthorized
  | forbidden
deriving Repr, DecidableEq

/-- Response plus the failure state after the request. -/
structure AuthOutcome where
  resp : HttpResp
  st : AuthState
deriving Repr, DecidableEq

/-- The credential check and failure recording of basic_auth (src/api/auth.rs
lines 77-120): authorized runs the request; otherwise the failure instant is
recorded (and_modify retains the window then pushes now; or_insert starts a
fresh list) and the answer is 401 with the Basic challenge. -/
def checkCreds (cfg : AuthConfig) (st : AuthState) (ip : String) (now : Nat)
    (creds : Option (String × String)) : AuthOutcome :=
  let authorized := match creds with
    | some (u, p) => cfg.check u p
    | none => false
  if authorized then { resp := .okNext, st := st }
  else
    let st2 : AuthState := match lookupIp st ip with
      | some times => { failed := updateFirstIp st.failed ip (retainWindow now times ++ [now]) }
      | none => { failed := st.failed ++ [(ip, [now])] }
    { resp := .unauthorized, st := st2 }

/-- Embeds basic_auth (src/api/auth.rs lines 49-121). The Authorization header
decode chain is abstracted to the parsed credential pair (none models a
missing or undecodable header). With an empty configured username no check
happens at all; otherwise the per-IP failure list is pruned to the window in
place and the request is rejected 403 when at least MAX_FAILURES remain,
before any look at the credentials. -/
def basic_auth (cfg : AuthConfig) (st : AuthState) (ip : String) (now : Nat)
    (creds : Option (String × String)) : AuthOutcome :=
  if cfg.username = "" then { resp := .okNext, st := st }
  else
    match lookupIp st ip with
    | some times =>
      let times2 := retainWindow now times
      let st1 : AuthState := { failed := updateFirstIp st.failed ip times2 }
      if MAX_FAILURES ≤ times2.length then { resp := .forbidden, st := st1 }
      else checkCreds cfg st1 ip now creds
    | none => checkCreds cfg st ip now creds

/- ===== Claim C9 ===== -/

/-- The response a non-banned request gets, by the credentials alone. -/
def credVerdict (cfg : AuthConfig) (creds : Option (String × String)) : HttpResp :=
  match creds with
  | some (u, p) => if cfg.check u p then .okNext else .unauthorized
  | none => .unauthorized

/-- C9: with an empty configured username no authentication is performed at
all; otherwise an IP holding at least MAX_FAILURES failures inside the
FAILURE_WINDOW sliding window is answered 403 regardless of the credentials
the request carries, while an IP whose retained in-window failures are below
the threshold (or unknown) is never answered 403: it gets okNext or 401
purely by its credentials. -/
theorem C9_auth_lockout (cfg : AuthConfig) (st : AuthState) (ip : String) (now : Nat)
    (creds : Option (String × String)) :
    (cfg.username = "" → basic_auth cfg st ip now creds = { resp := .okNext, st := st }) ∧
    (∀ ts : List Nat, cfg.username ≠ "" → lookupIp st ip = some ts →
      MAX_FAILURES ≤ (retainWindow now ts).length →
      (basic_auth cfg st ip now creds).resp = .forbidden) ∧
    (∀ ts : List Nat, cfg.username ≠ "" → lookupIp st ip = some ts →
      (retainWindow now ts).length < MAX_FAILURES →
      (basic_auth cfg st ip now creds).resp = credVerdict cfg creds) ∧
    (cfg.username ≠ "" → lookupIp st ip = none →
      (basic_auth cfg st ip now creds).resp = credVerdict cfg creds) := by
  have hcheck : ∀ st3 : AuthState,
      (checkCreds cfg st3 ip now creds).resp = credVerdict cfg creds := by
    intro st3
    unfold checkCreds credVerdict
    cases creds with
    | none => simp
    | some up =>
      obtain ⟨u, p⟩ := up
      by_cases hc : cfg.check u p = true
      · simp [hc]
      · have hc2 : cfg.check u p = false := by
          revert hc; cases cfg.check u p <;> simp
        simp [hc2]
  refine ⟨?_, ?_, ?_, ?_⟩
  · intro h
    simp [basic_auth, h]
  · intro ts hu hl hge
    simp only [basic_auth, hu, if_false, hl]
    simp [hge]
  · intro ts hu hl hlt
    have hnge : ¬ MAX_FAILURES ≤ (retainWindow now ts).length := by omega
    simp only [basic_auth, hu, if_false, hl]
    simp [hnge, hcheck]
  · intro hu hl
    simp only [basic_auth, hu, if_false, hl]
    exact hcheck st

/-- Auth configuration with a configured credential. -/
def egAuthCfg : AuthConfig := { username := "admin", password := "pw" }

/-- Failure state of IP 1.2.3.4: ten failures, all within the 120s window of
now = 200. -/
def egBannedState : AuthState :=
  { failed := [("1.2.3.4", [100, 110, 120, 130, 140, 150, 160, 170, 180, 190])] }

/-- Failure state of IP 1.2.3.4 as seen at now = 320: the same ten failures,
all of which have fallen out of the 120s window by then. -/
def egExpiredState : AuthState := egBannedState

/-- Witness for C9: at now = 200 the tenth failure bans the IP even with the
correct password; with the empty username nothing is checked; at now = 320
the window has drained and the correct password passes again. -/
theorem C9_auth_lockout_witness :
    (basic_auth { username := "", password := "" } egBannedState "1.2.3.4" 200
        (some ("x", "y")) = { resp := .okNext, st := egBannedState }) ∧
    ((basic_auth egAuthCfg egBannedState "1.2.3.4" 200 (some ("admin", "pw"))).resp
      = .forbidden) ∧
    ((basic_auth egAuthCfg egExpiredState "1.2.3.4" 320 (some ("admin", "pw"))).resp
      = credVerdict egAuthCfg (some ("admin", "pw"))) :=
  ⟨(C9_auth_lockout { username := "", password := "" } egBannedState "1.2.3.4" 200
      (some ("x", "y"))).1 rfl,
   (C9_auth_lockout egAuthCfg egBannedState "1.2.3.4" 200 (some ("admin", "pw"))).2.1
      [100, 110, 120, 130, 140, 150, 160, 170, 180, 190] (by decide) (by decide) (by decide),
   (C9_auth_lockout egAuthCfg egExpiredState "1.2.3.4" 320 (some ("admin", "pw"))).2.2.1
      [100, 110, 120, 130, 140, 150, 160, 170, 180, 190] (by decide) (by decide) (by decide)⟩

end Procd
